import Mathlib

/-!
Shallow embedding of the certificate-chain classification and field-extraction
core of `checkssl` (src/lib.rs, `CheckSSL::from_domain`), together with proofs
about the claims of its design specification.

The network/TLS layer is out of scope: the embedding starts from the value of
`tls.conn.peer_certificates()` (an optional list of raw DER certificates) and
a single current instant `now` (unix seconds), and mirrors the extraction loop
of lines 124-342 of src/lib.rs.
-/

namespace CheckSSL

/-- Outcome of a run of the extraction core.  `ok` is the `Ok(..)` path,
`err` is an early `return Err(Error::new(kind, msg))`, and `panic` is a Rust
panic (index out of bounds / `unwrap` on `None`), which in the source aborts
the call without returning any value. -/
inductive Step (α : Type) where
  | ok (a : α)
  | err (kind : String) (msg : String)
  | panic (msg : String)
deriving DecidableEq

/-- Monadic sequencing of steps: an error or panic short-circuits. -/
def Step.bind {α β : Type} : Step α → (α → Step β) → Step β
  | .ok a, f => f a
  | .err k m, _ => .err k m
  | .panic m, _ => .panic m

/-- Object identifiers that can occur as attribute types or signature
algorithms.  Models the OIDs known to the external resolver
`x509_parser::objects::oid2sn` plus an `unknown` constructor for OIDs
outside its table. -/
inductive Oid where
  | commonName
  | countryName
  | stateOrProvinceName
  | localityName
  | organizationName
  | organizationalUnitName
  | sha256WithRSAEncryption
  | sha1WithRSAEncryption
  | unknown (code : Nat)
deriving DecidableEq

/-- Models the external OID-to-short-name resolver
`x509_parser::objects::oid2sn` at its boundary: OIDs in its table resolve to
their registered short names, any other OID fails. -/
def oid2sn : Oid → Except String String
  | .commonName => .ok "CN"
  | .countryName => .ok "C"
  | .stateOrProvinceName => .ok "ST"
  | .localityName => .ok "L"
  | .organizationName => .ok "O"
  | .organizationalUnitName => .ok "OU"
  | .sha256WithRSAEncryption => .ok "sha256WithRSAEncryption"
  | .sha1WithRSAEncryption => .ok "sha1WithRSAEncryption"
  | .unknown _ => .error "oid not found"

/-- One attribute of an RDN set: its type OID and its value's string content.
`attr_value = none` models a value whose `content.as_str()` is `None`
(a non-string ASN.1 content), on which the source calls `.unwrap()`. -/
structure AttributeTypeAndValue where
  attr_type : Oid
  attr_value : Option String
deriving DecidableEq

/-- One relative distinguished name: a set (list) of attributes.  The source
only ever reads `set[0]`. -/
structure RelativeDistinguishedName where
  set : List AttributeTypeAndValue
deriving DecidableEq

/-- An X.509 name: a sequence of RDNs (`rdn_seq` in x509-parser). -/
structure X509Name where
  rdn_seq : List RelativeDistinguishedName
deriving DecidableEq

/-- A general name of the subject-alternative-name extension.  The source
matches only the `DNSName` variant; all others fall into the wildcard arm. -/
inductive GeneralName where
  | DNSName (dns : String)
  | IPAddress (addr : String)
  | otherName (value : String)
deriving DecidableEq

/-- The basic-constraints extension value; the source reads only its `ca`
flag. -/
structure BasicConstraints where
  ca : Bool
deriving DecidableEq

/-- A certificate's validity window, timestamps in unix seconds (the source
converts via `.timestamp()` / `Utc.timestamp(_, 0)`, which is exact at
second granularity). -/
structure Validity where
  not_before : Int
  not_after : Int
deriving DecidableEq

/-- Modelled from the spec: the Validity Evaluator's validity test.  The
implementation (`x509_parser::x509::Validity::is_valid`) lives in the
x509-parser dependency and is not part of this repository's sources; section
4.2 of the design gives its contract as
`is_valid = (not_before <= now <= not_after)` (inclusive bounds). -/
def Validity.is_valid_at (v : Validity) (now : Int) : Bool :=
  v.not_before ≤ now && now ≤ v.not_after

/-- Modelled from the spec: the Validity Evaluator's remaining-lifetime
computation (`x509_parser::x509::Validity::time_to_expiration`, outside this
repository's sources).  Per section 4.2 it yields the remaining duration
exactly when `not_after > now`, and is absent when `not_after <= now`; the
result is the whole number of remaining seconds (`Duration::as_secs`). -/
def Validity.time_to_expiration (v : Validity) (now : Int) : Option Nat :=
  if now < v.not_after then some (v.not_after - now).toNat else none

/-- The `tbs_certificate` portion of a decoded certificate, restricted to
the parts the source reads. -/
structure TbsCertificate where
  subject : X509Name
  issuer : X509Name
  validity : Validity
  basic_constraints : Option BasicConstraints
  subject_alternative_name : Option (List GeneralName)
deriving DecidableEq

/-- A decoded certificate: its `tbs_certificate` and the outer signature
algorithm OID (`x509cert.signature_algorithm.algorithm`). -/
structure X509Certificate where
  tbs_certificate : TbsCertificate
  signature_algorithm : Oid
deriving DecidableEq

/-- A raw certificate handed over by the handshake layer: either DER bytes
that the external decoder `parse_x509_der` accepts (carrying the decoded
certificate), or malformed bytes (carrying the decoder error's message,
`e.to_string()` in the source). -/
inductive RawCert where
  | wellFormed (cert : X509Certificate)
  | malformed (msg : String)
deriving DecidableEq

/-- Models the external DER decoder `parse_x509_der` at its boundary: a pure
function that yields the decoded certificate or fails with a message. -/
def parse_x509_der : RawCert → Except String X509Certificate
  | .wellFormed cert => .ok cert
  | .malformed msg => .error msg

/-- `ServerCert` of src/lib.rs lines 13-27. -/
structure ServerCert where
  common_name : String
  signature_algorithm : String
  sans : List String
  country : String
  state : String
  locality : String
  organization : String
  not_after : Int
  not_before : Int
  issuer : String
  is_valid : Bool
  time_to_expiration : String
deriving DecidableEq

/-- `IntermediateCert` of src/lib.rs lines 29-42. -/
structure IntermediateCert where
  common_name : String
  signature_algorithm : String
  country : String
  state : String
  locality : String
  organization : String
  not_after : Int
  not_before : Int
  issuer : String
  is_valid : Bool
  time_to_expiration : String
deriving DecidableEq

/-- `Cert` of src/lib.rs lines 44-48: the returned chain summary. -/
structure Cert where
  server : ServerCert
  intermediate : IntermediateCert
deriving DecidableEq

/-- The freshly initialized `server_cert` of lines 124-137: empty strings,
empty SAN list, `is_valid = false`, and both instants set to `Utc::now()`. -/
def freshServerCert (now : Int) : ServerCert where
  common_name := ""
  signature_algorithm := ""
  sans := []
  country := ""
  state := ""
  locality := ""
  organization := ""
  not_after := now
  not_before := now
  issuer := ""
  is_valid := false
  time_to_expiration := ""

/-- The freshly initialized `intermediate_cert` of lines 139-151. -/
def freshIntermediateCert (now : Int) : IntermediateCert where
  common_name := ""
  signature_algorithm := ""
  country := ""
  state := ""
  locality := ""
  organization := ""
  not_after := now
  not_before := now
  issuer := ""
  is_valid := false
  time_to_expiration := ""

/-- The CA classification of lines 160-163: `basic_constraints` present and
its `ca` flag set; absence of the extension means not a CA. -/
def certIsCA (x : X509Certificate) : Bool :=
  match x.tbs_certificate.basic_constraints with
  | some bc => bc.ca
  | none => false

/-- One step of the issuer RDN walk (lines 195-215 / 280-300): read `set[0]`
(panics when the set is empty), resolve its type OID (early error on
failure), unwrap its value's string content (panics on non-string content),
and set the issuer field when the short name is `CN`. -/
def issuerStep (rdn : RelativeDistinguishedName) (issuer : String) : Step String :=
  match rdn.set with
  | [] => .panic "index out of bounds: the len is 0 but the index is 0"
  | atv :: _ =>
    match oid2sn atv.attr_type with
    | .ok s =>
      match atv.attr_value with
      | none => .panic "called Option.unwrap on a None value"
      | some rdn_content => .ok (if s == "CN" then rdn_content else issuer)
    | .error _ => .err "Other" "Error converting Oid to Nid"

/-- The five subject-derived string fields shared by both record types. -/
structure SubjectFields where
  country : String
  state : String
  locality : String
  common_name : String
  organization : String
deriving DecidableEq

/-- One step of the subject RDN walk (lines 216-241 / 302-327): read
`set[0]`, resolve its type OID, unwrap the string content, and route the
value through the match on the short name (`C`, `ST`, `L`, `CN`, `O`,
anything else ignored). -/
def subjectStep (rdn : RelativeDistinguishedName) (f : SubjectFields) : Step SubjectFields :=
  match rdn.set with
  | [] => .panic "index out of bounds: the len is 0 but the index is 0"
  | atv :: _ =>
    match oid2sn atv.attr_type with
    | .ok s =>
      match atv.attr_value with
      | none => .panic "called Option.unwrap on a None value"
      | some rdn_content =>
        .ok (if s == "C" then { f with country := rdn_content }
             else if s == "ST" then { f with state := rdn_content }
             else if s == "L" then { f with locality := rdn_content }
             else if s == "CN" then { f with common_name := rdn_content }
             else if s == "O" then { f with organization := rdn_content }
             else f)
    | .error _ => .err "Other" "Error converting Oid to Nid"

/-- Left fold of a per-element step over a list, short-circuiting on error
or panic: the shape of the source's `for` loops with early `return Err` and
possible panics. -/
def foldSteps {α σ : Type} (f : α → σ → Step σ) : List α → σ → Step σ
  | [], st => .ok st
  | a :: l, st =>
    match f a st with
    | .ok st' => foldSteps f l st'
    | .err k m => .err k m
    | .panic m => .panic m

/-- The DNS names pushed by the SAN loop of lines 261-268: the `DNSName`
entries of the extension, in order, all other variants ignored; an absent
extension contributes nothing. -/
def dnsNames (x : X509Certificate) : List String :=
  match x.tbs_certificate.subject_alternative_name with
  | some general_names =>
    general_names.filterMap fun g =>
      match g with
      | .DNSName dns => some dns
      | _ => none
  | none => []

/-- The string the source writes for a remaining duration of `secs` seconds:
`format!("{:?} day(s)", secs / 60 / 60 / 24)`. -/
def daysString (secs : Nat) : String :=
  toString (secs / 60 / 60 / 24) ++ " day(s)"

/-- The `is_ca` branch of the loop (lines 166-241): update the intermediate
record in source order — validity flag and instants, signature algorithm
(early error on resolution failure), time-to-expiration when present, then
the issuer and subject RDN walks. -/
def updateIntermediate (now : Int) (x : X509Certificate) (ic : IntermediateCert) :
    Step IntermediateCert :=
  let v := x.tbs_certificate.validity
  let ic := { ic with
    is_valid := v.is_valid_at now
    not_after := v.not_after
    not_before := v.not_before }
  match oid2sn x.signature_algorithm with
  | .error _ => .err "Other" "Error converting Oid to Nid"
  | .ok s =>
    let ic := { ic with signature_algorithm := s }
    let ic := match v.time_to_expiration now with
      | some secs => { ic with time_to_expiration := daysString secs }
      | none => ic
    Step.bind (foldSteps issuerStep x.tbs_certificate.issuer.rdn_seq ic.issuer) fun iss =>
      let ic := { ic with issuer := iss }
      Step.bind (foldSteps subjectStep x.tbs_certificate.subject.rdn_seq
          ⟨ic.country, ic.state, ic.locality, ic.common_name, ic.organization⟩) fun f =>
        Step.ok { ic with
          country := f.country
          state := f.state
          locality := f.locality
          common_name := f.common_name
          organization := f.organization }

/-- The non-CA (leaf) branch of the loop (lines 242-328): update the server
record in source order — validity flag and instants, signature algorithm,
SAN push of the DNS names, time-to-expiration when present, then the issuer
and subject RDN walks. -/
def updateServer (now : Int) (x : X509Certificate) (sc : ServerCert) :
    Step ServerCert :=
  let v := x.tbs_certificate.validity
  let sc := { sc with
    is_valid := v.is_valid_at now
    not_after := v.not_after
    not_before := v.not_before }
  match oid2sn x.signature_algorithm with
  | .error _ => .err "Other" "Error converting Oid to Nid"
  | .ok s =>
    let sc := { sc with signature_algorithm := s }
    let sc := { sc with sans := sc.sans ++ dnsNames x }
    let sc := match v.time_to_expiration now with
      | some secs => { sc with time_to_expiration := daysString secs }
      | none => sc
    Step.bind (foldSteps issuerStep x.tbs_certificate.issuer.rdn_seq sc.issuer) fun iss =>
      let sc := { sc with issuer := iss }
      Step.bind (foldSteps subjectStep x.tbs_certificate.subject.rdn_seq
          ⟨sc.country, sc.state, sc.locality, sc.common_name, sc.organization⟩) fun f =>
        Step.ok { sc with
          country := f.country
          state := f.state
          locality := f.locality
          common_name := f.common_name
          organization := f.organization }

/-- Processing of one decoded certificate: route it into the intermediate
record when it is a CA, into the server record otherwise (lines 166 and
242). -/
def processCert (now : Int) (x : X509Certificate) (sc : ServerCert)
    (ic : IntermediateCert) : Step (ServerCert × IntermediateCert) :=
  if certIsCA x then
    Step.bind (updateIntermediate now x ic) fun ic' => Step.ok (sc, ic')
  else
    Step.bind (updateServer now x sc) fun sc' => Step.ok (sc', ic)

/-- The `for certificate in certificates.iter()` loop of lines 154-329:
decode each raw certificate (early error with the decoder's message on
failure, `ErrorKind::Other`), then process it. -/
def processChain (now : Int) :
    List RawCert → ServerCert → IntermediateCert → Step (ServerCert × IntermediateCert)
  | [], sc, ic => .ok (sc, ic)
  | raw :: rest, sc, ic =>
    match parse_x509_der raw with
    | .error e => .err "Other" e
    | .ok x509cert =>
      match processCert now x509cert sc ic with
      | .ok (sc', ic') => processChain now rest sc' ic'
      | .err k m => .err k m
      | .panic m => .panic m

/-- The extraction core of `CheckSSL::from_domain` (lines 124-342): when the
session exposes no peer-certificate list at all, fail with
`ErrorKind::NotFound`/"certificate not found"; otherwise initialize both
records fresh and run the loop, packaging the two records into a `Cert`. -/
def extract (now : Int) (peer_certificates : Option (List RawCert)) : Step Cert :=
  match peer_certificates with
  | some certificates =>
    Step.bind (processChain now certificates (freshServerCert now) (freshIntermediateCert now))
      fun p => Step.ok { server := p.1, intermediate := p.2 }
  | none => .err "NotFound" "certificate not found"

/-- The short name the walk would resolve for an RDN: that of its first
attribute's type, when the set is non-empty and the OID is known. -/
def rdnShortName (rdn : RelativeDistinguishedName) : Option String :=
  match rdn.set with
  | [] => none
  | atv :: _ =>
    match oid2sn atv.attr_type with
    | .ok s => some s
    | .error _ => none

/-- A name provides an attribute (for the walk of the source) when some RDN's
first attribute resolves to the given short name. -/
def providesAttr (n : X509Name) (name : String) : Bool :=
  n.rdn_seq.any fun rdn => rdnShortName rdn == some name

/-- An RDN the walk can process without error or panic: non-empty set, first
attribute's type OID in the resolver's table, first value with string
content. -/
def goodRDN (rdn : RelativeDistinguishedName) : Bool :=
  match rdn.set with
  | [] => false
  | atv :: _ => (oid2sn atv.attr_type).isOk && atv.attr_value.isSome

/-- A decoded certificate the loop body processes without error or panic:
resolvable signature algorithm and well-behaved RDNs on both names. -/
def goodCert (x : X509Certificate) : Bool :=
  (oid2sn x.signature_algorithm).isOk
    && x.tbs_certificate.subject.rdn_seq.all goodRDN
    && x.tbs_certificate.issuer.rdn_seq.all goodRDN

/-- A raw certificate the loop processes without error or panic. -/
def goodRaw : RawCert → Bool
  | .wellFormed x => goodCert x
  | .malformed _ => false

/-- An RDN on which the walk does not panic: non-empty set whose first value
has string content (an unresolvable OID gives an early error, not a
panic). -/
def rdnNonpanicking (rdn : RelativeDistinguishedName) : Bool :=
  match rdn.set with
  | [] => false
  | atv :: _ => atv.attr_value.isSome

/-- A decoded certificate on which the loop body cannot panic. -/
def certNonpanicking (x : X509Certificate) : Bool :=
  x.tbs_certificate.subject.rdn_seq.all rdnNonpanicking
    && x.tbs_certificate.issuer.rdn_seq.all rdnNonpanicking

/-- A raw certificate on which the loop cannot panic (malformed bytes give an
early error, not a panic). -/
def rawNonpanicking : RawCert → Bool
  | .wellFormed x => certNonpanicking x
  | .malformed _ => true

/-- The DNS names a raw chain entry contributes to the server record's SAN
sequence: those of its SAN extension when it decodes to a leaf (non-CA)
certificate, nothing otherwise. -/
def leafDns : RawCert → List String
  | .wellFormed x => if certIsCA x then [] else dnsNames x
  | .malformed _ => []

/-- Projection out of a successful step, with a default for the other
outcomes (used only to name concrete computed results in examples). -/
def Step.getOk {α : Type} (d : α) : Step α → α
  | .ok a => a
  | .err _ _ => d
  | .panic _ => d

/-- A typical leaf certificate: no basic-constraints extension, a SAN
extension mixing DNS and non-DNS names, subject C and CN, issuer CN. -/
def exampleLeaf : X509Certificate where
  tbs_certificate :=
    { subject := ⟨[⟨[⟨.countryName, some "US"⟩]⟩, ⟨[⟨.commonName, some "example.com"⟩]⟩]⟩
      issuer := ⟨[⟨[⟨.commonName, some "Example CA"⟩]⟩]⟩
      validity := ⟨0, 1000000⟩
      basic_constraints := none
      subject_alternative_name :=
        some [.DNSName "example.com", .IPAddress "1.2.3.4", .DNSName "www.example.com"] }
  signature_algorithm := .sha256WithRSAEncryption

/-- A typical CA certificate: basic constraints present with the CA flag
set, subject CN, issuer CN, long validity. -/
def exampleCA : X509Certificate where
  tbs_certificate :=
    { subject := ⟨[⟨[⟨.commonName, some "Example CA"⟩]⟩]⟩
      issuer := ⟨[⟨[⟨.commonName, some "Root CA"⟩]⟩]⟩
      validity := ⟨0, 1000000000⟩
      basic_constraints := some ⟨true⟩
      subject_alternative_name := none }
  signature_algorithm := .sha256WithRSAEncryption

/-- An expired CA certificate that provides no subject or issuer
attributes at all. -/
def expiredCA : X509Certificate where
  tbs_certificate :=
    { subject := ⟨[]⟩
      issuer := ⟨[]⟩
      validity := ⟨0, 500⟩
      basic_constraints := some ⟨true⟩
      subject_alternative_name := none }
  signature_algorithm := .sha256WithRSAEncryption

/-- A leaf certificate whose SAN extension is [DNS a.com, IP 1.2.3.4,
DNS b.com]. -/
def sanLeafA : X509Certificate where
  tbs_certificate :=
    { subject := ⟨[]⟩
      issuer := ⟨[]⟩
      validity := ⟨0, 10⟩
      basic_constraints := none
      subject_alternative_name := some [.DNSName "a.com", .IPAddress "1.2.3.4", .DNSName "b.com"] }
  signature_algorithm := .sha256WithRSAEncryption

/-- A second leaf certificate whose SAN extension is [DNS c.com]. -/
def sanLeafB : X509Certificate where
  tbs_certificate :=
    { subject := ⟨[]⟩
      issuer := ⟨[]⟩
      validity := ⟨0, 10⟩
      basic_constraints := none
      subject_alternative_name := some [.DNSName "c.com"] }
  signature_algorithm := .sha256WithRSAEncryption

/-- A leaf certificate that is not yet valid (not_before in the future)
while its not_after also lies in the future. -/
def notYetValidLeaf : X509Certificate where
  tbs_certificate :=
    { subject := ⟨[]⟩
      issuer := ⟨[]⟩
      validity := ⟨100, 200000⟩
      basic_constraints := none
      subject_alternative_name := none }
  signature_algorithm := .sha256WithRSAEncryption

/-- A leaf certificate whose issuer name contains an RDN with an empty
attribute set: reading `set[0]` panics. -/
def emptyRdnSetLeaf : X509Certificate where
  tbs_certificate :=
    { subject := ⟨[]⟩
      issuer := ⟨[⟨[]⟩]⟩
      validity := ⟨0, 10⟩
      basic_constraints := none
      subject_alternative_name := none }
  signature_algorithm := .sha256WithRSAEncryption

/-- A leaf certificate whose issuer name has an RDN whose first attribute
value has no string content: `as_str().unwrap()` panics. -/
def nonStringRdnLeaf : X509Certificate where
  tbs_certificate :=
    { subject := ⟨[]⟩
      issuer := ⟨[⟨[⟨.commonName, none⟩]⟩]⟩
      validity := ⟨0, 10⟩
      basic_constraints := none
      subject_alternative_name := none }
  signature_algorithm := .sha256WithRSAEncryption

theorem bind_ok {α β : Type} (a : α) (f : α → Step β) : Step.bind (.ok a) f = f a := rfl

theorem processChain_append (now : Int) (l₁ l₂ : List RawCert) (sc : ServerCert)
    (ic : IntermediateCert) :
    processChain now (l₁ ++ l₂) sc ic =
      Step.bind (processChain now l₁ sc ic) fun p => processChain now l₂ p.1 p.2 := by
  induction l₁ generalizing sc ic with
  | nil => rfl
  | cons raw rest ih =>
    simp only [List.cons_append, processChain]
    cases hp : parse_x509_der raw with
    | error e => simp only [Step.bind]
    | ok x =>
      cases h : processCert now x sc ic with
      | ok p => cases p with | mk a b => simp only [h, Step.bind]; exact ih a b
      | err k m => simp only [h, Step.bind]
      | panic m => simp only [h, Step.bind]

/-- The fields of the server record after one successful leaf update, in
terms of the certificate and the previous record. -/
theorem updateServer_ok_fields {now : Int} {x : X509Certificate} {sc sc' : ServerCert}
    (h : updateServer now x sc = .ok sc') :
    sc'.is_valid = x.tbs_certificate.validity.is_valid_at now
    ∧ sc'.not_after = x.tbs_certificate.validity.not_after
    ∧ sc'.not_before = x.tbs_certificate.validity.not_before
    ∧ (∀ s, oid2sn x.signature_algorithm = .ok s → sc'.signature_algorithm = s)
    ∧ sc'.sans = sc.sans ++ dnsNames x
    ∧ (∀ secs, x.tbs_certificate.validity.time_to_expiration now = some secs →
        sc'.time_to_expiration = daysString secs)
    ∧ (x.tbs_certificate.validity.time_to_expiration now = none →
        sc'.time_to_expiration = sc.time_to_expiration) := by
  unfold updateServer at h
  split at h
  case _ e hsig => exact absurd h (by simp)
  case _ s hsig =>
  dsimp only [] at h
  split at h
  case _ secs htte =>
    cases hiss : foldSteps issuerStep x.tbs_certificate.issuer.rdn_seq sc.issuer with
    | ok iss =>
      rw [hiss] at h
      simp only [Step.bind] at h
      cases hsub : foldSteps subjectStep x.tbs_certificate.subject.rdn_seq
          ⟨sc.country, sc.state, sc.locality, sc.common_name, sc.organization⟩ with
      | ok f =>
        rw [hsub] at h
        simp only [Step.bind] at h
        cases h
        refine ⟨rfl, rfl, rfl, ?_, rfl, ?_, ?_⟩
        · intro s' hs'; rw [hsig] at hs'; cases hs'; rfl
        · intro secs' hsecs'; rw [htte] at hsecs'; cases hsecs'; rfl
        · intro hnone; rw [htte] at hnone; cases hnone
      | err k m => rw [hsub] at h; exact absurd h (by simp [Step.bind])
      | panic m => rw [hsub] at h; exact absurd h (by simp [Step.bind])
    | err k m => rw [hiss] at h; exact absurd h (by simp [Step.bind])
    | panic m => rw [hiss] at h; exact absurd h (by simp [Step.bind])
  case _ htte =>
    cases hiss : foldSteps issuerStep x.tbs_certificate.issuer.rdn_seq sc.issuer with
    | ok iss =>
      rw [hiss] at h
      simp only [Step.bind] at h
      cases hsub : foldSteps subjectStep x.tbs_certificate.subject.rdn_seq
          ⟨sc.country, sc.state, sc.locality, sc.common_name, sc.organization⟩ with
      | ok f =>
        rw [hsub] at h
        simp only [Step.bind] at h
        cases h
        refine ⟨rfl, rfl, rfl, ?_, rfl, ?_, fun _ => rfl⟩
        · intro s' hs'; rw [hsig] at hs'; cases hs'; rfl
        · intro secs hsecs; rw [htte] at hsecs; cases hsecs
      | err k m => rw [hsub] at h; exact absurd h (by simp [Step.bind])
      | panic m => rw [hsub] at h; exact absurd h (by simp [Step.bind])
    | err k m => rw [hiss] at h; exact absurd h (by simp [Step.bind])
    | panic m => rw [hiss] at h; exact absurd h (by simp [Step.bind])

/-- The fields of the intermediate record after one successful CA update, in
terms of the certificate and the previous record. -/
theorem updateIntermediate_ok_fields {now : Int} {x : X509Certificate}
    {ic ic' : IntermediateCert} (h : updateIntermediate now x ic = .ok ic') :
    ic'.is_valid = x.tbs_certificate.validity.is_valid_at now
    ∧ ic'.not_after = x.tbs_certificate.validity.not_after
    ∧ ic'.not_before = x.tbs_certificate.validity.not_before
    ∧ (∀ s, oid2sn x.signature_algorithm = .ok s → ic'.signature_algorithm = s)
    ∧ (∀ secs, x.tbs_certificate.validity.time_to_expiration now = some secs →
        ic'.time_to_expiration = daysString secs)
    ∧ (x.tbs_certificate.validity.time_to_expiration now = none →
        ic'.time_to_expiration = ic.time_to_expiration) := by
  unfold updateIntermediate at h
  split at h
  case _ e hsig => exact absurd h (by simp)
  case _ s hsig =>
  dsimp only [] at h
  split at h
  case _ secs htte =>
    cases hiss : foldSteps issuerStep x.tbs_certificate.issuer.rdn_seq ic.issuer with
    | ok iss =>
      rw [hiss] at h
      simp only [Step.bind] at h
      cases hsub : foldSteps subjectStep x.tbs_certificate.subject.rdn_seq
          ⟨ic.country, ic.state, ic.locality, ic.common_name, ic.organization⟩ with
      | ok f =>
        rw [hsub] at h
        simp only [Step.bind] at h
        cases h
        refine ⟨rfl, rfl, rfl, ?_, ?_, ?_⟩
        · intro s' hs'; rw [hsig] at hs'; cases hs'; rfl
        · intro secs' hsecs'; rw [htte] at hsecs'; cases hsecs'; rfl
        · intro hnone; rw [htte] at hnone; cases hnone
      | err k m => rw [hsub] at h; exact absurd h (by simp [Step.bind])
      | panic m => rw [hsub] at h; exact absurd h (by simp [Step.bind])
    | err k m => rw [hiss] at h; exact absurd h (by simp [Step.bind])
    | panic m => rw [hiss] at h; exact absurd h (by simp [Step.bind])
  case _ htte =>
    cases hiss : foldSteps issuerStep x.tbs_certificate.issuer.rdn_seq ic.issuer with
    | ok iss =>
      rw [hiss] at h
      simp only [Step.bind] at h
      cases hsub : foldSteps subjectStep x.tbs_certificate.subject.rdn_seq
          ⟨ic.country, ic.state, ic.locality, ic.common_name, ic.organization⟩ with
      | ok f =>
        rw [hsub] at h
        simp only [Step.bind] at h
        cases h
        refine ⟨rfl, rfl, rfl, ?_, ?_, fun _ => rfl⟩
        · intro s' hs'; rw [hsig] at hs'; cases hs'; rfl
        · intro secs hsecs; rw [htte] at hsecs; cases hsecs
      | err k m => rw [hsub] at h; exact absurd h (by simp [Step.bind])
      | panic m => rw [hsub] at h; exact absurd h (by simp [Step.bind])
    | err k m => rw [hiss] at h; exact absurd h (by simp [Step.bind])
    | panic m => rw [hiss] at h; exact absurd h (by simp [Step.bind])

/-- A CA certificate is routed into the intermediate record and leaves the
server record untouched. -/
theorem processCert_ca {now : Int} {x : X509Certificate} {sc : ServerCert}
    {ic : IntermediateCert} {p : ServerCert × IntermediateCert}
    (hca : certIsCA x = true) (h : processCert now x sc ic = .ok p) :
    p.1 = sc ∧ updateIntermediate now x ic = .ok p.2 := by
  unfold processCert at h
  rw [hca] at h
  simp only [if_pos rfl] at h
  cases hu : updateIntermediate now x ic with
  | ok ic' => rw [hu] at h; simp only [Step.bind] at h; cases h; exact ⟨rfl, rfl⟩
  | err k m => rw [hu] at h; exact absurd h (by simp [Step.bind])
  | panic m => rw [hu] at h; exact absurd h (by simp [Step.bind])

/-- A non-CA certificate is routed into the server record and leaves the
intermediate record untouched. -/
theorem processCert_leaf {now : Int} {x : X509Certificate} {sc : ServerCert}
    {ic : IntermediateCert} {p : ServerCert × IntermediateCert}
    (hca : certIsCA x = false) (h : processCert now x sc ic = .ok p) :
    p.2 = ic ∧ updateServer now x sc = .ok p.1 := by
  unfold processCert at h
  rw [hca] at h
  simp only [Bool.false_eq_true, if_neg] at h
  cases hu : updateServer now x sc with
  | ok sc' => rw [hu] at h; simp only [Step.bind] at h; cases h; exact ⟨rfl, rfl⟩
  | err k m => rw [hu] at h; exact absurd h (by simp [Step.bind])
  | panic m => rw [hu] at h; exact absurd h (by simp [Step.bind])

/-- A chain containing malformed DER bytes never yields a summary. -/
theorem processChain_malformed_not_ok {now : Int} {msg : String} {chain : List RawCert}
    (hm : RawCert.malformed msg ∈ chain) :
    ∀ sc ic p, processChain now chain sc ic ≠ .ok p := by
  induction chain with
  | nil => cases hm
  | cons raw rest ih =>
    intro sc ic p
    cases raw with
    | malformed m => simp [processChain, parse_x509_der]
    | wellFormed x =>
      have hm' : RawCert.malformed msg ∈ rest := by
        cases hm with
        | tail _ h' => exact h'
      simp only [processChain, parse_x509_der]
      cases hpc : processCert now x sc ic with
      | ok q => cases q with | mk a b => exact ih hm' a b p
      | err k m => simp
      | panic m => simp

/-- Once the loop reaches malformed DER bytes, it aborts with the decoder's
message, whatever certificates follow. -/
theorem processChain_malformed_abort {now : Int} {pre : List RawCert} {msg : String}
    (post : List RawCert) {sc : ServerCert} {ic : IntermediateCert}
    {p : ServerCert × IntermediateCert} (h : processChain now pre sc ic = .ok p) :
    processChain now (pre ++ RawCert.malformed msg :: post) sc ic = .err "Other" msg := by
  rw [processChain_append, h]
  simp only [Step.bind]
  rfl

/-- A subject-walk step only writes the field matching its resolved short
name; every other field is preserved. -/
theorem subjectStep_ok_fields {rdn : RelativeDistinguishedName} {f g : SubjectFields}
    (h : subjectStep rdn f = .ok g) :
    (rdnShortName rdn ≠ some "C" → g.country = f.country)
    ∧ (rdnShortName rdn ≠ some "ST" → g.state = f.state)
    ∧ (rdnShortName rdn ≠ some "L" → g.locality = f.locality)
    ∧ (rdnShortName rdn ≠ some "CN" → g.common_name = f.common_name)
    ∧ (rdnShortName rdn ≠ some "O" → g.organization = f.organization) := by
  unfold subjectStep at h
  cases hset : rdn.set with
  | nil => rw [hset] at h; exact absurd h (by simp)
  | cons atv rest =>
    rw [hset] at h
    dsimp only [] at h
    cases hoid : oid2sn atv.attr_type with
    | error e => rw [hoid] at h; exact absurd h (by simp)
    | ok s =>
      rw [hoid] at h
      cases hval : atv.attr_value with
      | none => rw [hval] at h; exact absurd h (by simp)
      | some content =>
        rw [hval] at h
        simp only [] at h
        cases h
        have hsn : rdnShortName rdn = some s := by
          simp [rdnShortName, hset, hoid]
        refine ⟨?_, ?_, ?_, ?_, ?_⟩ <;> intro hne <;>
          by_cases hC : s = "C" <;> by_cases hST : s = "ST" <;> by_cases hL : s = "L" <;>
            by_cases hCN : s = "CN" <;> by_cases hO : s = "O" <;> simp_all

/-- An issuer-walk step whose resolved short name is not `CN` preserves the
issuer field. -/
theorem issuerStep_ok_preserves {rdn : RelativeDistinguishedName} {v v' : String}
    (h : issuerStep rdn v = .ok v') (hne : rdnShortName rdn ≠ some "CN") : v' = v := by
  unfold issuerStep at h
  cases hset : rdn.set with
  | nil => rw [hset] at h; exact absurd h (by simp)
  | cons atv rest =>
    rw [hset] at h
    dsimp only [] at h
    cases hoid : oid2sn atv.attr_type with
    | error e => rw [hoid] at h; exact absurd h (by simp)
    | ok s =>
      rw [hoid] at h
      cases hval : atv.attr_value with
      | none => rw [hval] at h; exact absurd h (by simp)
      | some content =>
        rw [hval] at h
        simp only [] at h
        cases h
        have hsn : rdnShortName rdn = some s := by
          simp [rdnShortName, hset, hoid]
        by_cases hCN : s = "CN" <;> simp_all

/-- The issuer walk leaves the issuer field unchanged when no RDN resolves
to `CN`. -/
theorem issuerFold_preserves {rdns : List RelativeDistinguishedName} {v v' : String}
    (h : foldSteps issuerStep rdns v = .ok v')
    (hnone : ∀ r ∈ rdns, rdnShortName r ≠ some "CN") : v' = v := by
  induction rdns generalizing v with
  | nil => cases h; rfl
  | cons rdn rest ih =>
    simp only [foldSteps] at h
    cases hs : issuerStep rdn v with
    | ok v₁ =>
      rw [hs] at h
      have hv₁ : v₁ = v := issuerStep_ok_preserves hs (hnone rdn (by simp))
      subst hv₁
      exact ih h fun r hr => hnone r (List.mem_cons_of_mem _ hr)
    | err k m => rw [hs] at h; exact absurd h (by simp)
    | panic m => rw [hs] at h; exact absurd h (by simp)

/-- The subject walk leaves a field unchanged when no RDN resolves to the
corresponding short name. -/
theorem subjectFold_preserves {rdns : List RelativeDistinguishedName} {f f' : SubjectFields}
    (h : foldSteps subjectStep rdns f = .ok f') :
    ((∀ r ∈ rdns, rdnShortName r ≠ some "C") → f'.country = f.country)
    ∧ ((∀ r ∈ rdns, rdnShortName r ≠ some "ST") → f'.state = f.state)
    ∧ ((∀ r ∈ rdns, rdnShortName r ≠ some "L") → f'.locality = f.locality)
    ∧ ((∀ r ∈ rdns, rdnShortName r ≠ some "CN") → f'.common_name = f.common_name)
    ∧ ((∀ r ∈ rdns, rdnShortName r ≠ some "O") → f'.organization = f.organization) := by
  induction rdns generalizing f with
  | nil => cases h; exact ⟨fun _ => rfl, fun _ => rfl, fun _ => rfl, fun _ => rfl, fun _ => rfl⟩
  | cons rdn rest ih =>
    simp only [foldSteps] at h
    cases hs : subjectStep rdn f with
    | ok g =>
      rw [hs] at h
      obtain ⟨h1, h2, h3, h4, h5⟩ := subjectStep_ok_fields hs
      obtain ⟨i1, i2, i3, i4, i5⟩ := ih h
      refine ⟨?_, ?_, ?_, ?_, ?_⟩ <;> intro hall
      · rw [i1 fun r hr => hall r (List.mem_cons_of_mem _ hr), h1 (hall rdn (by simp))]
      · rw [i2 fun r hr => hall r (List.mem_cons_of_mem _ hr), h2 (hall rdn (by simp))]
      · rw [i3 fun r hr => hall r (List.mem_cons_of_mem _ hr), h3 (hall rdn (by simp))]
      · rw [i4 fun r hr => hall r (List.mem_cons_of_mem _ hr), h4 (hall rdn (by simp))]
      · rw [i5 fun r hr => hall r (List.mem_cons_of_mem _ hr), h5 (hall rdn (by simp))]
    | err k m => rw [hs] at h; exact absurd h (by simp)
    | panic m => rw [hs] at h; exact absurd h (by simp)

/-- Absence of an attribute, phrased per RDN. -/
theorem providesAttr_false {n : X509Name} {name : String}
    (h : providesAttr n name = false) : ∀ r ∈ n.rdn_seq, rdnShortName r ≠ some name := by
  intro r hr
  have := List.any_eq_false.mp h r hr
  simpa using this

/-- Destructured shape of a successful leaf update: the RDN-derived string
fields of the new record are exactly the outputs of the two walks started
from the previous record's values. -/
theorem updateServer_ok_spec {now : Int} {x : X509Certificate} {sc sc' : ServerCert}
    (h : updateServer now x sc = .ok sc') :
    ∃ s iss f,
      oid2sn x.signature_algorithm = .ok s
      ∧ foldSteps issuerStep x.tbs_certificate.issuer.rdn_seq sc.issuer = .ok iss
      ∧ foldSteps subjectStep x.tbs_certificate.subject.rdn_seq
          ⟨sc.country, sc.state, sc.locality, sc.common_name, sc.organization⟩ = .ok f
      ∧ sc'.country = f.country ∧ sc'.state = f.state ∧ sc'.locality = f.locality
      ∧ sc'.common_name = f.common_name ∧ sc'.organization = f.organization
      ∧ sc'.issuer = iss := by
  unfold updateServer at h
  split at h
  case _ e hsig => exact absurd h (by simp)
  case _ s hsig =>
  dsimp only [] at h
  split at h <;>
  · cases hiss : foldSteps issuerStep x.tbs_certificate.issuer.rdn_seq sc.issuer with
    | ok iss =>
      rw [hiss] at h
      simp only [Step.bind] at h
      cases hsub : foldSteps subjectStep x.tbs_certificate.subject.rdn_seq
          ⟨sc.country, sc.state, sc.locality, sc.common_name, sc.organization⟩ with
      | ok f =>
        rw [hsub] at h
        simp only [Step.bind] at h
        cases h
        exact ⟨s, iss, f, hsig, rfl, rfl, rfl, rfl, rfl, rfl, rfl, rfl⟩
      | err k m => rw [hsub] at h; exact absurd h (by simp [Step.bind])
      | panic m => rw [hsub] at h; exact absurd h (by simp [Step.bind])
    | err k m => rw [hiss] at h; exact absurd h (by simp [Step.bind])
    | panic m => rw [hiss] at h; exact absurd h (by simp [Step.bind])

/-- Destructured shape of a successful CA update. -/
theorem updateIntermediate_ok_spec {now : Int} {x : X509Certificate}
    {ic ic' : IntermediateCert} (h : updateIntermediate now x ic = .ok ic') :
    ∃ s iss f,
      oid2sn x.signature_algorithm = .ok s
      ∧ foldSteps issuerStep x.tbs_certificate.issuer.rdn_seq ic.issuer = .ok iss
      ∧ foldSteps subjectStep x.tbs_certificate.subject.rdn_seq
          ⟨ic.country, ic.state, ic.locality, ic.common_name, ic.organization⟩ = .ok f
      ∧ ic'.country = f.country ∧ ic'.state = f.state ∧ ic'.locality = f.locality
      ∧ ic'.common_name = f.common_name ∧ ic'.organization = f.organization
      ∧ ic'.issuer = iss := by
  unfold updateIntermediate at h
  split at h
  case _ e hsig => exact absurd h (by simp)
  case _ s hsig =>
  dsimp only [] at h
  split at h <;>
  · cases hiss : foldSteps issuerStep x.tbs_certificate.issuer.rdn_seq ic.issuer with
    | ok iss =>
      rw [hiss] at h
      simp only [Step.bind] at h
      cases hsub : foldSteps subjectStep x.tbs_certificate.subject.rdn_seq
          ⟨ic.country, ic.state, ic.locality, ic.common_name, ic.organization⟩ with
      | ok f =>
        rw [hsub] at h
        simp only [Step.bind] at h
        cases h
        exact ⟨s, iss, f, hsig, rfl, rfl, rfl, rfl, rfl, rfl, rfl, rfl⟩
      | err k m => rw [hsub] at h; exact absurd h (by simp [Step.bind])
      | panic m => rw [hsub] at h; exact absurd h (by simp [Step.bind])
    | err k m => rw [hiss] at h; exact absurd h (by simp [Step.bind])
    | panic m => rw [hiss] at h; exact absurd h (by simp [Step.bind])

/-- A leaf update leaves a string field at its previous value when the
certificate's name does not provide the corresponding attribute. -/
theorem updateServer_absent_fields {now : Int} {x : X509Certificate} {sc sc' : ServerCert}
    (h : updateServer now x sc = .ok sc') :
    (providesAttr x.tbs_certificate.subject "C" = false → sc'.country = sc.country)
    ∧ (providesAttr x.tbs_certificate.subject "ST" = false → sc'.state = sc.state)
    ∧ (providesAttr x.tbs_certificate.subject "L" = false → sc'.locality = sc.locality)
    ∧ (providesAttr x.tbs_certificate.subject "CN" = false → sc'.common_name = sc.common_name)
    ∧ (providesAttr x.tbs_certificate.subject "O" = false → sc'.organization = sc.organization)
    ∧ (providesAttr x.tbs_certificate.issuer "CN" = false → sc'.issuer = sc.issuer) := by
  obtain ⟨s, iss, f, hsig, hiss, hsub, hc, hst, hl, hcn, ho, hi⟩ := updateServer_ok_spec h
  obtain ⟨p1, p2, p3, p4, p5⟩ := subjectFold_preserves hsub
  refine ⟨?_, ?_, ?_, ?_, ?_, ?_⟩ <;> intro ha
  · rw [hc, p1 (providesAttr_false ha)]
  · rw [hst, p2 (providesAttr_false ha)]
  · rw [hl, p3 (providesAttr_false ha)]
  · rw [hcn, p4 (providesAttr_false ha)]
  · rw [ho, p5 (providesAttr_false ha)]
  · rw [hi, issuerFold_preserves hiss (providesAttr_false ha)]

/-- A CA update leaves a string field at its previous value when the
certificate's name does not provide the corresponding attribute. -/
theorem updateIntermediate_absent_fields {now : Int} {x : X509Certificate}
    {ic ic' : IntermediateCert} (h : updateIntermediate now x ic = .ok ic') :
    (providesAttr x.tbs_certificate.subject "C" = false → ic'.country = ic.country)
    ∧ (providesAttr x.tbs_certificate.subject "ST" = false → ic'.state = ic.state)
    ∧ (providesAttr x.tbs_certificate.subject "L" = false → ic'.locality = ic.locality)
    ∧ (providesAttr x.tbs_certificate.subject "CN" = false → ic'.common_name = ic.common_name)
    ∧ (providesAttr x.tbs_certificate.subject "O" = false → ic'.organization = ic.organization)
    ∧ (providesAttr x.tbs_certificate.issuer "CN" = false → ic'.issuer = ic.issuer) := by
  obtain ⟨s, iss, f, hsig, hiss, hsub, hc, hst, hl, hcn, ho, hi⟩ := updateIntermediate_ok_spec h
  obtain ⟨p1, p2, p3, p4, p5⟩ := subjectFold_preserves hsub
  refine ⟨?_, ?_, ?_, ?_, ?_, ?_⟩ <;> intro ha
  · rw [hc, p1 (providesAttr_false ha)]
  · rw [hst, p2 (providesAttr_false ha)]
  · rw [hl, p3 (providesAttr_false ha)]
  · rw [hcn, p4 (providesAttr_false ha)]
  · rw [ho, p5 (providesAttr_false ha)]
  · rw [hi, issuerFold_preserves hiss (providesAttr_false ha)]

/-- The server record's SAN sequence after a successful pass: the previous
sequence followed by the concatenated DNS names of all leaf certificates in
chain order. -/
theorem processChain_sans {now : Int} {chain : List RawCert} {sc : ServerCert}
    {ic : IntermediateCert} {p : ServerCert × IntermediateCert}
    (h : processChain now chain sc ic = .ok p) :
    p.1.sans = sc.sans ++ (chain.map leafDns).flatten := by
  induction chain generalizing sc ic with
  | nil => cases h; simp
  | cons raw rest ih =>
    simp only [processChain] at h
    cases raw with
    | malformed m => exact absurd h (by simp [parse_x509_der])
    | wellFormed x =>
      simp only [parse_x509_der] at h
      cases hpc : processCert now x sc ic with
      | ok q =>
        cases q with
        | mk a b =>
          rw [hpc] at h
          dsimp only [] at h
          have hq := ih h
          by_cases hca : certIsCA x
          · obtain ⟨ha, _⟩ := processCert_ca hca hpc
            have ha' : a = sc := ha
            simp [leafDns, hca, hq, ha']
          · have hca' : certIsCA x = false := by simpa using hca
            obtain ⟨_, hu⟩ := processCert_leaf hca' hpc
            have hsans : a.sans = sc.sans ++ dnsNames x :=
              (updateServer_ok_fields hu).2.2.2.2.1
            simp [leafDns, hca', hq, hsans]
      | err k m => rw [hpc] at h; exact absurd h (by simp)
      | panic m => rw [hpc] at h; exact absurd h (by simp)

/-- A stretch of the chain that decodes to non-CA certificates only leaves
the intermediate record untouched. -/
theorem processChain_noCA_preserves {now : Int} {chain : List RawCert} {sc : ServerCert}
    {ic : IntermediateCert} {p : ServerCert × IntermediateCert}
    (h : processChain now chain sc ic = .ok p)
    (hno : ∀ r ∈ chain, ∀ x, parse_x509_der r = .ok x → certIsCA x = false) :
    p.2 = ic := by
  induction chain generalizing sc ic with
  | nil => cases h; rfl
  | cons raw rest ih =>
    simp only [processChain] at h
    cases raw with
    | malformed m => exact absurd h (by simp [parse_x509_der])
    | wellFormed x =>
      simp only [parse_x509_der] at h
      cases hpc : processCert now x sc ic with
      | ok q =>
        cases q with
        | mk a b =>
          rw [hpc] at h
          dsimp only [] at h
          have hca : certIsCA x = false := hno (RawCert.wellFormed x) (by simp) x rfl
          obtain ⟨hb, _⟩ := processCert_leaf hca hpc
          rw [ih h fun r hr => hno r (List.mem_cons_of_mem _ hr)]
          exact hb
      | err k m => rw [hpc] at h; exact absurd h (by simp)
      | panic m => rw [hpc] at h; exact absurd h (by simp)

theorem issuerStep_good {rdn : RelativeDistinguishedName} {v : String}
    (hg : goodRDN rdn = true) : ∃ v', issuerStep rdn v = .ok v' := by
  unfold goodRDN at hg
  unfold issuerStep
  cases hset : rdn.set with
  | nil => rw [hset] at hg; cases hg
  | cons atv rest =>
    rw [hset] at hg
    dsimp only [] at hg ⊢
    cases hoid : oid2sn atv.attr_type with
    | error e => rw [hoid] at hg; simp [Except.isOk, Except.toBool] at hg
    | ok s =>
      cases hval : atv.attr_value with
      | none => rw [hval] at hg; simp at hg
      | some c => exact ⟨_, rfl⟩

theorem subjectStep_good {rdn : RelativeDistinguishedName} {f : SubjectFields}
    (hg : goodRDN rdn = true) : ∃ f', subjectStep rdn f = .ok f' := by
  unfold goodRDN at hg
  unfold subjectStep
  cases hset : rdn.set with
  | nil => rw [hset] at hg; cases hg
  | cons atv rest =>
    rw [hset] at hg
    dsimp only [] at hg ⊢
    cases hoid : oid2sn atv.attr_type with
    | error e => rw [hoid] at hg; simp [Except.isOk, Except.toBool] at hg
    | ok s =>
      cases hval : atv.attr_value with
      | none => rw [hval] at hg; simp at hg
      | some c => exact ⟨_, rfl⟩

theorem issuerFold_good {rdns : List RelativeDistinguishedName}
    (hg : rdns.all goodRDN = true) :
    ∀ v, ∃ v', foldSteps issuerStep rdns v = .ok v' := by
  induction rdns with
  | nil => exact fun v => ⟨v, rfl⟩
  | cons rdn rest ih =>
    intro v
    simp only [List.all_cons, Bool.and_eq_true] at hg
    obtain ⟨v₁, h₁⟩ := issuerStep_good (v := v) hg.1
    obtain ⟨v', h'⟩ := ih hg.2 v₁
    exact ⟨v', by simp only [foldSteps, h₁]; exact h'⟩

theorem subjectFold_good {rdns : List RelativeDistinguishedName}
    (hg : rdns.all goodRDN = true) :
    ∀ f, ∃ f', foldSteps subjectStep rdns f = .ok f' := by
  induction rdns with
  | nil => exact fun f => ⟨f, rfl⟩
  | cons rdn rest ih =>
    intro f
    simp only [List.all_cons, Bool.and_eq_true] at hg
    obtain ⟨f₁, h₁⟩ := subjectStep_good (f := f) hg.1
    obtain ⟨f', h'⟩ := ih hg.2 f₁
    exact ⟨f', by simp only [foldSteps, h₁]; exact h'⟩

theorem updateServer_good {now : Int} {x : X509Certificate} {sc : ServerCert}
    (hg : goodCert x = true) : ∃ sc', updateServer now x sc = .ok sc' := by
  unfold goodCert at hg
  simp only [Bool.and_eq_true] at hg
  obtain ⟨⟨hsig, hsub⟩, hiss⟩ := hg
  unfold updateServer
  cases hoid : oid2sn x.signature_algorithm with
  | error e => rw [hoid] at hsig; simp [Except.isOk, Except.toBool] at hsig
  | ok s =>
    dsimp only []
    obtain ⟨iss, hiss'⟩ := issuerFold_good hiss _
    rw [hiss']
    simp only [Step.bind]
    obtain ⟨f, hsub'⟩ := subjectFold_good hsub _
    rw [hsub']
    exact ⟨_, rfl⟩

theorem updateIntermediate_good {now : Int} {x : X509Certificate} {ic : IntermediateCert}
    (hg : goodCert x = true) : ∃ ic', updateIntermediate now x ic = .ok ic' := by
  unfold goodCert at hg
  simp only [Bool.and_eq_true] at hg
  obtain ⟨⟨hsig, hsub⟩, hiss⟩ := hg
  unfold updateIntermediate
  cases hoid : oid2sn x.signature_algorithm with
  | error e => rw [hoid] at hsig; simp [Except.isOk, Except.toBool] at hsig
  | ok s =>
    dsimp only []
    obtain ⟨iss, hiss'⟩ := issuerFold_good hiss _
    rw [hiss']
    simp only [Step.bind]
    obtain ⟨f, hsub'⟩ := subjectFold_good hsub _
    rw [hsub']
    exact ⟨_, rfl⟩

theorem processCert_good {now : Int} {x : X509Certificate} {sc : ServerCert}
    {ic : IntermediateCert} (hg : goodCert x = true) :
    ∃ q, processCert now x sc ic = .ok q := by
  unfold processCert
  by_cases hca : certIsCA x
  · obtain ⟨ic', hic⟩ := @updateIntermediate_good now x ic hg
    exact ⟨(sc, ic'), by rw [if_pos hca, hic]; rfl⟩
  · obtain ⟨sc', hsc⟩ := @updateServer_good now x sc hg
    exact ⟨(sc', ic), by rw [if_neg hca, hsc]; rfl⟩

/-- A chain of well-behaved certificates is processed to completion: a
summary is produced whatever the validity windows are. -/
theorem processChain_good {now : Int} {chain : List RawCert}
    (hg : chain.all goodRaw = true) :
    ∀ sc ic, ∃ p, processChain now chain sc ic = .ok p := by
  induction chain with
  | nil => exact fun sc ic => ⟨(sc, ic), rfl⟩
  | cons raw rest ih =>
    intro sc ic
    simp only [List.all_cons, Bool.and_eq_true] at hg
    cases raw with
    | malformed m => simp [goodRaw] at hg
    | wellFormed x =>
      have hgc : goodCert x = true := hg.1
      obtain ⟨q, hq⟩ := @processCert_good now x sc ic hgc
      obtain ⟨p, hp⟩ := ih hg.2 q.1 q.2
      refine ⟨p, ?_⟩
      simp only [processChain, parse_x509_der, hq]
      exact hp

theorem issuerStep_no_panic {rdn : RelativeDistinguishedName} {v : String} {m : String}
    (hr : rdnNonpanicking rdn = true) : issuerStep rdn v ≠ .panic m := by
  unfold rdnNonpanicking at hr
  unfold issuerStep
  cases hset : rdn.set with
  | nil => rw [hset] at hr; cases hr
  | cons atv rest =>
    rw [hset] at hr
    dsimp only [] at hr ⊢
    cases hoid : oid2sn atv.attr_type with
    | error e => simp
    | ok s =>
      cases hval : atv.attr_value with
      | none => rw [hval] at hr; cases hr
      | some c => simp

theorem subjectStep_no_panic {rdn : RelativeDistinguishedName} {f : SubjectFields}
    {m : String} (hr : rdnNonpanicking rdn = true) : subjectStep rdn f ≠ .panic m := by
  unfold rdnNonpanicking at hr
  unfold subjectStep
  cases hset : rdn.set with
  | nil => rw [hset] at hr; cases hr
  | cons atv rest =>
    rw [hset] at hr
    dsimp only [] at hr ⊢
    cases hoid : oid2sn atv.attr_type with
    | error e => simp
    | ok s =>
      cases hval : atv.attr_value with
      | none => rw [hval] at hr; cases hr
      | some c => simp

theorem issuerFold_no_panic {rdns : List RelativeDistinguishedName}
    (hr : rdns.all rdnNonpanicking = true) :
    ∀ v m, foldSteps issuerStep rdns v ≠ .panic m := by
  induction rdns with
  | nil => intro v m; simp [foldSteps]
  | cons rdn rest ih =>
    intro v m
    simp only [List.all_cons, Bool.and_eq_true] at hr
    simp only [foldSteps]
    cases hs : issuerStep rdn v with
    | ok v₁ => exact ih hr.2 v₁ m
    | err k m' => simp
    | panic m' => exact absurd hs (issuerStep_no_panic hr.1)

theorem subjectFold_no_panic {rdns : List RelativeDistinguishedName}
    (hr : rdns.all rdnNonpanicking = true) :
    ∀ f m, foldSteps subjectStep rdns f ≠ .panic m := by
  induction rdns with
  | nil => intro f m; simp [foldSteps]
  | cons rdn rest ih =>
    intro f m
    simp only [List.all_cons, Bool.and_eq_true] at hr
    simp only [foldSteps]
    cases hs : subjectStep rdn f with
    | ok f₁ => exact ih hr.2 f₁ m
    | err k m' => simp
    | panic m' => exact absurd hs (subjectStep_no_panic hr.1)

theorem updateServer_no_panic {now : Int} {x : X509Certificate} {sc : ServerCert}
    {m : String} (hx : certNonpanicking x = true) : updateServer now x sc ≠ .panic m := by
  unfold certNonpanicking at hx
  simp only [Bool.and_eq_true] at hx
  unfold updateServer
  cases hoid : oid2sn x.signature_algorithm with
  | error e => simp
  | ok s =>
    dsimp only []
    cases htte : x.tbs_certificate.validity.time_to_expiration now <;>
    · cases hiss : foldSteps issuerStep x.tbs_certificate.issuer.rdn_seq _ with
      | ok iss =>
        simp only [Step.bind]
        cases hsub : foldSteps subjectStep x.tbs_certificate.subject.rdn_seq _ with
        | ok f => simp [Step.bind]
        | err k m' => simp [Step.bind]
        | panic m' => exact absurd hsub (subjectFold_no_panic hx.1 _ _)
      | err k m' => simp [Step.bind]
      | panic m' => exact absurd hiss (issuerFold_no_panic hx.2 _ _)

theorem updateIntermediate_no_panic {now : Int} {x : X509Certificate}
    {ic : IntermediateCert} {m : String} (hx : certNonpanicking x = true) :
    updateIntermediate now x ic ≠ .panic m := by
  unfold certNonpanicking at hx
  simp only [Bool.and_eq_true] at hx
  unfold updateIntermediate
  cases hoid : oid2sn x.signature_algorithm with
  | error e => simp
  | ok s =>
    dsimp only []
    cases htte : x.tbs_certificate.validity.time_to_expiration now <;>
    · cases hiss : foldSteps issuerStep x.tbs_certificate.issuer.rdn_seq _ with
      | ok iss =>
        simp only [Step.bind]
        cases hsub : foldSteps subjectStep x.tbs_certificate.subject.rdn_seq _ with
        | ok f => simp [Step.bind]
        | err k m' => simp [Step.bind]
        | panic m' => exact absurd hsub (subjectFold_no_panic hx.1 _ _)
      | err k m' => simp [Step.bind]
      | panic m' => exact absurd hiss (issuerFold_no_panic hx.2 _ _)

theorem processCert_no_panic {now : Int} {x : X509Certificate} {sc : ServerCert}
    {ic : IntermediateCert} {m : String} (hx : certNonpanicking x = true) :
    processCert now x sc ic ≠ .panic m := by
  unfold processCert
  by_cases hca : certIsCA x
  · rw [if_pos hca]
    cases hu : updateIntermediate now x ic with
    | ok ic' => simp [Step.bind]
    | err k m' => simp [Step.bind]
    | panic m' => exact absurd hu (updateIntermediate_no_panic hx)
  · rw [if_neg hca]
    cases hu : updateServer now x sc with
    | ok sc' => simp [Step.bind]
    | err k m' => simp [Step.bind]
    | panic m' => exact absurd hu (updateServer_no_panic hx)

/-- When every chain entry is non-panicking, the loop never panics (it may
still stop with an error). -/
theorem processChain_no_panic {now : Int} {chain : List RawCert}
    (hc : chain.all rawNonpanicking = true) :
    ∀ sc ic m, processChain now chain sc ic ≠ .panic m := by
  induction chain with
  | nil => intro sc ic m; simp [processChain]
  | cons raw rest ih =>
    intro sc ic m
    simp only [List.all_cons, Bool.and_eq_true] at hc
    cases raw with
    | malformed msg => simp [processChain, parse_x509_der]
    | wellFormed x =>
      simp only [processChain, parse_x509_der]
      cases hpc : processCert now x sc ic with
      | ok q => cases q with | mk a b => exact ih hc.2 a b m
      | err k m' => simp
      | panic m' => exact absurd hpc (processCert_no_panic hc.1)

/-- The day count the source prints equals truncated division of the
remaining seconds by 86400. -/
theorem daysString_eq (secs : Nat) : daysString secs = toString (secs / 86400) ++ " day(s)" := by
  unfold daysString
  rw [Nat.div_div_eq_div_mul, Nat.div_div_eq_div_mul]

/-- C1 counterexample: invoked with a present but empty certificate chain,
extraction does not return the "certificate not found" error; it returns a
summary whose two records are still the freshly initialized defaults,
although no certificate was processed. -/
theorem c1_empty_chain_counterexample :
    extract 0 (some []) =
      Step.ok { server := freshServerCert 0, intermediate := freshIntermediateCert 0 }
    ∧ extract 0 (some []) ≠ Step.err "NotFound" "certificate not found" :=
  ⟨rfl, by decide⟩

/-- C1 (amended): the NoCertificatesFound outcome (`ErrorKind::NotFound`,
"certificate not found") is returned exactly when the session exposes no
peer-certificate list at all; a present but empty list instead yields the
default summary with no certificate processed. -/
theorem c1_no_certificates_found (now : Int) :
    extract now none = Step.err "NotFound" "certificate not found"
    ∧ extract now (some []) =
        Step.ok { server := freshServerCert now, intermediate := freshIntermediateCert now } :=
  ⟨rfl, rfl⟩

/-- C2: a certificate is classified CA iff its basic-constraints extension
is present with the CA flag true (absence means non-CA), and the loop writes
a CA certificate into the intermediate record leaving the server record
untouched, and a non-CA certificate into the server record leaving the
intermediate record untouched. -/
theorem c2_ca_classification (x : X509Certificate) :
    (certIsCA x = true ↔ ∃ bc, x.tbs_certificate.basic_constraints = some bc ∧ bc.ca = true)
    ∧ (x.tbs_certificate.basic_constraints = none → certIsCA x = false)
    ∧ ∀ now sc ic p, processCert now x sc ic = Step.ok p →
        (certIsCA x = true → p.1 = sc ∧ updateIntermediate now x ic = Step.ok p.2)
        ∧ (certIsCA x = false → p.2 = ic ∧ updateServer now x sc = Step.ok p.1) := by
  refine ⟨?_, ?_, ?_⟩
  · unfold certIsCA
    cases hbc : x.tbs_certificate.basic_constraints with
    | none => simp
    | some bc => simp
  · intro h; unfold certIsCA; rw [h]
  · intro now sc ic p hp
    constructor
    · intro hca; exact processCert_ca hca hp
    · intro hca; exact processCert_leaf hca hp

/-- C2 witness: the CA example certificate, processed at a concrete instant
from fresh records, leaves the server record untouched. -/
theorem c2_ca_classification_witness :
    ((processCert 1000 exampleCA (freshServerCert 1000) (freshIntermediateCert 1000)).getOk
        (freshServerCert 1000, freshIntermediateCert 1000)).1 = freshServerCert 1000 :=
  (((c2_ca_classification exampleCA).2.2 1000 (freshServerCert 1000)
      (freshIntermediateCert 1000) _ rfl).1 rfl).1

/-- C3: malformed DER bytes abort the pass with an `ErrorKind::Other` error
carrying the decoder's message, independently of whatever certificates
follow (they are not processed), and a chain containing malformed bytes
never yields a summary. -/
theorem c3_decode_failure_aborts (now : Int) (pre post : List RawCert) (msg : String)
    (p : ServerCert × IntermediateCert)
    (hpre : processChain now pre (freshServerCert now) (freshIntermediateCert now) = .ok p) :
    extract now (some (pre ++ RawCert.malformed msg :: post)) = Step.err "Other" msg
    ∧ ∀ chain, RawCert.malformed msg ∈ chain →
        ∀ c, extract now (some chain) ≠ Step.ok c := by
  constructor
  · unfold extract
    dsimp only []
    rw [processChain_malformed_abort post hpre]
    rfl
  · intro chain hm c hok
    unfold extract at hok
    dsimp only [] at hok
    cases hpc : processChain now chain (freshServerCert now) (freshIntermediateCert now) with
    | ok q => exact processChain_malformed_not_ok hm _ _ q hpc
    | err k m => rw [hpc] at hok; exact absurd hok (by simp [Step.bind])
    | panic m => rw [hpc] at hok; exact absurd hok (by simp [Step.bind])

/-- C3 witness: a chain whose second entry is malformed aborts with the
decoder message even though a further certificate follows. -/
theorem c3_decode_failure_aborts_witness :
    extract 10 (some ([RawCert.wellFormed exampleLeaf] ++
        RawCert.malformed "Parsing Error: Eof" :: [RawCert.wellFormed exampleCA])) =
      Step.err "Other" "Parsing Error: Eof"
    ∧ ∀ chain, RawCert.malformed "Parsing Error: Eof" ∈ chain →
        ∀ c, extract 10 (some chain) ≠ Step.ok c :=
  c3_decode_failure_aborts 10 [RawCert.wellFormed exampleLeaf] [RawCert.wellFormed exampleCA]
    "Parsing Error: Eof" _ rfl

/-- C4: for a successfully processed certificate, the record it is routed
into has `is_valid = true` exactly when `now` lies within
[not_before, not_after], bounds included; nothing besides the certificate's
validity window and `now` enters the computation. -/
theorem c4_is_valid_window (now : Int) (x : X509Certificate) (sc : ServerCert)
    (ic : IntermediateCert) (p : ServerCert × IntermediateCert)
    (h : processCert now x sc ic = Step.ok p) :
    (certIsCA x = false →
      (p.1.is_valid = true ↔
        x.tbs_certificate.validity.not_before ≤ now
        ∧ now ≤ x.tbs_certificate.validity.not_after))
    ∧ (certIsCA x = true →
      (p.2.is_valid = true ↔
        x.tbs_certificate.validity.not_before ≤ now
        ∧ now ≤ x.tbs_certificate.validity.not_after)) := by
  constructor
  · intro hca
    obtain ⟨_, hu⟩ := processCert_leaf hca h
    rw [(updateServer_ok_fields hu).1]
    unfold Validity.is_valid_at
    simp [Bool.and_eq_true, decide_eq_true_eq]
  · intro hca
    obtain ⟨_, hu⟩ := processCert_ca hca h
    rw [(updateIntermediate_ok_fields hu).1]
    unfold Validity.is_valid_at
    simp [Bool.and_eq_true, decide_eq_true_eq]

/-- C4 witness: the example leaf certificate processed at instant 500 from
fresh records is reported valid exactly because 0 ≤ 500 ≤ 1000000. -/
theorem c4_is_valid_window_witness :
    ((processCert 500 exampleLeaf (freshServerCert 500) (freshIntermediateCert 500)).getOk
        (freshServerCert 500, freshIntermediateCert 500)).1.is_valid = true
      ↔ (0 : Int) ≤ 500 ∧ (500 : Int) ≤ 1000000 :=
  (c4_is_valid_window 500 exampleLeaf (freshServerCert 500) (freshIntermediateCert 500)
      _ rfl).1 rfl

/-- C5: the written record's time_to_expiration becomes
"<remaining seconds / 86400> day(s)" (truncated division) exactly when
not_after is strictly in the future; when not_after ≤ now the field keeps
its previous value, in particular the empty string of a fresh record. -/
theorem c5_time_to_expiration (now : Int) (x : X509Certificate) (sc : ServerCert)
    (ic : IntermediateCert) (p : ServerCert × IntermediateCert)
    (h : processCert now x sc ic = Step.ok p) :
    (certIsCA x = false →
      (now < x.tbs_certificate.validity.not_after →
        p.1.time_to_expiration =
          toString ((x.tbs_certificate.validity.not_after - now).toNat / 86400) ++ " day(s)")
      ∧ (x.tbs_certificate.validity.not_after ≤ now →
          p.1.time_to_expiration = sc.time_to_expiration))
    ∧ (certIsCA x = true →
      (now < x.tbs_certificate.validity.not_after →
        p.2.time_to_expiration =
          toString ((x.tbs_certificate.validity.not_after - now).toNat / 86400) ++ " day(s)")
      ∧ (x.tbs_certificate.validity.not_after ≤ now →
          p.2.time_to_expiration = ic.time_to_expiration)) := by
  constructor
  · intro hca
    obtain ⟨_, hu⟩ := processCert_leaf hca h
    obtain ⟨_, _, _, _, _, hsome, hnone⟩ := updateServer_ok_fields hu
    constructor
    · intro hlt
      have hs : x.tbs_certificate.validity.time_to_expiration now =
          some (x.tbs_certificate.validity.not_after - now).toNat := by
        unfold Validity.time_to_expiration; rw [if_pos hlt]
      rw [hsome _ hs, daysString_eq]
    · intro hle
      have hn : x.tbs_certificate.validity.time_to_expiration now = none := by
        unfold Validity.time_to_expiration; rw [if_neg (by omega)]
      exact hnone hn
  · intro hca
    obtain ⟨_, hu⟩ := processCert_ca hca h
    obtain ⟨_, _, _, _, hsome, hnone⟩ := updateIntermediate_ok_fields hu
    constructor
    · intro hlt
      have hs : x.tbs_certificate.validity.time_to_expiration now =
          some (x.tbs_certificate.validity.not_after - now).toNat := by
        unfold Validity.time_to_expiration; rw [if_pos hlt]
      rw [hsome _ hs, daysString_eq]
    · intro hle
      have hn : x.tbs_certificate.validity.time_to_expiration now = none := by
        unfold Validity.time_to_expiration; rw [if_neg (by omega)]
      exact hnone hn

/-- C5 witness: the example leaf processed at instant 500 with not_after
1000000 strictly in the future gets "<(1000000-500)/86400> day(s)", i.e.
"11 day(s)". -/
theorem c5_time_to_expiration_witness :
    ((500 : Int) < 1000000 →
      ((processCert 500 exampleLeaf (freshServerCert 500) (freshIntermediateCert 500)).getOk
          (freshServerCert 500, freshIntermediateCert 500)).1.time_to_expiration =
        toString (((1000000 : Int) - 500).toNat / 86400) ++ " day(s)")
    ∧ ((1000000 : Int) ≤ 500 →
      ((processCert 500 exampleLeaf (freshServerCert 500) (freshIntermediateCert 500)).getOk
          (freshServerCert 500, freshIntermediateCert 500)).1.time_to_expiration =
        (freshServerCert 500).time_to_expiration) :=
  (c5_time_to_expiration 500 exampleLeaf (freshServerCert 500) (freshIntermediateCert 500)
      _ rfl).1 rfl

/-- C6 counterexample: with two CA certificates in the chain, the returned
intermediate record is a mixture, not the last CA's fields: the last CA
(whose subject provides no CN and which is expired) leaves common_name
"Example CA", issuer "Root CA" and time_to_expiration "11574 day(s)" from
the first CA, as the single-CA run on the last CA alone shows (it yields
empty strings for all three). -/
theorem c6_last_ca_counterexample :
    extract 1000 (some [RawCert.wellFormed exampleCA, RawCert.wellFormed expiredCA]) =
      Step.ok { server := freshServerCert 1000,
                intermediate :=
                  { common_name := "Example CA",
                    signature_algorithm := "sha256WithRSAEncryption",
                    country := "", state := "", locality := "", organization := "",
                    not_after := 500, not_before := 0, issuer := "Root CA",
                    is_valid := false, time_to_expiration := "11574 day(s)" } }
    ∧ extract 1000 (some [RawCert.wellFormed expiredCA]) =
      Step.ok { server := freshServerCert 1000,
                intermediate :=
                  { common_name := "",
                    signature_algorithm := "sha256WithRSAEncryption",
                    country := "", state := "", locality := "", organization := "",
                    not_after := 500, not_before := 0, issuer := "",
                    is_valid := false, time_to_expiration := "" } }
    ∧ providesAttr expiredCA.tbs_certificate.subject "CN" = false
    ∧ ("Example CA" : String) ≠ "" :=
  ⟨by decide, by decide, rfl, by decide⟩

/-- C6 (amended): every CA certificate overwrites the intermediate record's
unconditionally written fields, so after a successful pass they come from
the last CA in chain order (is_valid, not_before, not_after,
signature_algorithm); fields that a CA writes only when it provides them
(common_name and the other RDN-derived strings, time_to_expiration) can
survive from earlier CA certificates, as the counterexample shows. -/
theorem c6_last_ca_wins (now : Int) (pre post : List RawCert) (x : X509Certificate)
    (sc : ServerCert) (ic : IntermediateCert) (p : ServerCert × IntermediateCert)
    (hca : certIsCA x = true)
    (hpost : ∀ r ∈ post, ∀ y, parse_x509_der r = .ok y → certIsCA y = false)
    (h : processChain now (pre ++ RawCert.wellFormed x :: post) sc ic = .ok p) :
    p.2.is_valid = x.tbs_certificate.validity.is_valid_at now
    ∧ p.2.not_after = x.tbs_certificate.validity.not_after
    ∧ p.2.not_before = x.tbs_certificate.validity.not_before
    ∧ ∀ s, oid2sn x.signature_algorithm = .ok s → p.2.signature_algorithm = s := by
  rw [processChain_append] at h
  cases hpre : processChain now pre sc ic with
  | ok q =>
    rw [hpre] at h
    simp only [Step.bind] at h
    simp only [processChain, parse_x509_der] at h
    cases hpc : processCert now x q.1 q.2 with
    | ok q' =>
      cases q' with
      | mk a b =>
        rw [hpc] at h
        dsimp only [] at h
        obtain ⟨_, hui⟩ := processCert_ca hca hpc
        have hkeep := processChain_noCA_preserves h hpost
        obtain ⟨h1, h2, h3, h4, _, _⟩ := updateIntermediate_ok_fields hui
        rw [hkeep]
        exact ⟨h1, h2, h3, h4⟩
    | err k m => rw [hpc] at h; exact absurd h (by simp)
    | panic m => rw [hpc] at h; exact absurd h (by simp)
  | err k m => rw [hpre] at h; exact absurd h (by simp [Step.bind])
  | panic m => rw [hpre] at h; exact absurd h (by simp [Step.bind])

/-- C6 witness: a singleton chain holding one CA certificate, processed at a
concrete instant, gives an intermediate record carrying that CA's
unconditionally written fields. -/
theorem c6_last_ca_wins_witness :
    ((processChain 1000 ([] ++ RawCert.wellFormed exampleCA :: []) (freshServerCert 1000)
          (freshIntermediateCert 1000)).getOk
        (freshServerCert 1000, freshIntermediateCert 1000)).2.is_valid =
      exampleCA.tbs_certificate.validity.is_valid_at 1000
    ∧ ((processChain 1000 ([] ++ RawCert.wellFormed exampleCA :: []) (freshServerCert 1000)
          (freshIntermediateCert 1000)).getOk
        (freshServerCert 1000, freshIntermediateCert 1000)).2.not_after =
      exampleCA.tbs_certificate.validity.not_after
    ∧ ((processChain 1000 ([] ++ RawCert.wellFormed exampleCA :: []) (freshServerCert 1000)
          (freshIntermediateCert 1000)).getOk
        (freshServerCert 1000, freshIntermediateCert 1000)).2.not_before =
      exampleCA.tbs_certificate.validity.not_before
    ∧ ∀ s, oid2sn exampleCA.signature_algorithm = .ok s →
        ((processChain 1000 ([] ++ RawCert.wellFormed exampleCA :: []) (freshServerCert 1000)
              (freshIntermediateCert 1000)).getOk
            (freshServerCert 1000, freshIntermediateCert 1000)).2.signature_algorithm = s :=
  c6_last_ca_wins 1000 [] [] exampleCA (freshServerCert 1000) (freshIntermediateCert 1000)
    _ rfl (by simp) rfl

/-- C7 counterexample: with two leaf certificates in the chain the server
record's SAN sequence is the concatenation of both extensions' DNS names,
so it is not "exactly the DNS names of that extension" for either leaf. -/
theorem c7_san_counterexample :
    extract 0 (some [RawCert.wellFormed sanLeafA, RawCert.wellFormed sanLeafB]) =
      Step.ok { server :=
                  { common_name := "",
                    signature_algorithm := "sha256WithRSAEncryption",
                    sans := ["a.com", "b.com", "c.com"],
                    country := "", state := "", locality := "", organization := "",
                    not_after := 10, not_before := 0, issuer := "",
                    is_valid := true, time_to_expiration := "0 day(s)" },
                intermediate := freshIntermediateCert 0 }
    ∧ dnsNames sanLeafA = ["a.com", "b.com"]
    ∧ dnsNames sanLeafB = ["c.com"]
    ∧ (["a.com", "b.com", "c.com"] : List String) ≠ ["a.com", "b.com"]
    ∧ (["a.com", "b.com", "c.com"] : List String) ≠ ["c.com"] :=
  ⟨by decide, rfl, rfl, by decide, by decide⟩

/-- C7 (amended): the server record's SAN sequence is its previous content
followed by the DNS-type names of every leaf certificate's SAN extension, in
chain order and extension order, duplicates preserved; CA certificates
contribute nothing, non-DNS names are dropped, and an extension
[DNS d1, IP ip, DNS d2] contributes exactly [d1, d2]. -/
theorem c7_san_dns_concatenation :
    (∀ now chain sc ic p, processChain now chain sc ic = Step.ok p →
        p.1.sans = sc.sans ++ (chain.map leafDns).flatten)
    ∧ (∀ x, certIsCA x = true → leafDns (RawCert.wellFormed x) = [])
    ∧ (∀ x d1 ip d2,
        x.tbs_certificate.subject_alternative_name =
          some [GeneralName.DNSName d1, GeneralName.IPAddress ip, GeneralName.DNSName d2] →
        dnsNames x = [d1, d2]) := by
  refine ⟨fun now chain sc ic p h => processChain_sans h, ?_, ?_⟩
  · intro x hca
    simp [leafDns, hca]
  · intro x d1 ip d2 hsan
    simp [dnsNames, hsan]

/-- C7 witness: for the single-leaf chain holding the [DNS a.com,
IP 1.2.3.4, DNS b.com] extension, the resulting SAN sequence is exactly the
concatenation of that one leaf's DNS names. -/
theorem c7_san_dns_concatenation_witness :
    ((processChain 0 [RawCert.wellFormed sanLeafA] (freshServerCert 0)
          (freshIntermediateCert 0)).getOk (freshServerCert 0, freshIntermediateCert 0)).1.sans =
      (freshServerCert 0).sans ++ ([RawCert.wellFormed sanLeafA].map leafDns).flatten :=
  c7_san_dns_concatenation.1 0 [RawCert.wellFormed sanLeafA] (freshServerCert 0)
    (freshIntermediateCert 0) _ rfl

/-- C8 counterexample: a not-yet-valid leaf (now 50 before not_before 100,
not_after 200000 in the future) is reported with is_valid = false but a
populated, non-empty time_to_expiration of "2 day(s)". -/
theorem c8_not_yet_valid_counterexample :
    extract 50 (some [RawCert.wellFormed notYetValidLeaf]) =
      Step.ok { server :=
                  { common_name := "",
                    signature_algorithm := "sha256WithRSAEncryption",
                    sans := [],
                    country := "", state := "", locality := "", organization := "",
                    not_after := 200000, not_before := 100, issuer := "",
                    is_valid := false, time_to_expiration := "2 day(s)" },
                intermediate := freshIntermediateCert 50 }
    ∧ (50 : Int) < notYetValidLeaf.tbs_certificate.validity.not_before
    ∧ ("2 day(s)" : String) ≠ "" :=
  ⟨by decide, by decide, by decide⟩

/-- C8 (amended): temporal invalidity never aborts extraction — a chain of
well-behaved certificates always yields a summary — and an expired
certificate (not_after < now) is reported in its record with
is_valid = false and a time_to_expiration left at its previous value, in
particular empty on a fresh record; a not-yet-valid certificate whose
not_after is still in the future instead gets a populated
time_to_expiration (see the counterexample). -/
theorem c8_temporal_invalidity_not_error :
    (∀ (now : Int) (chain : List RawCert), chain.all goodRaw = true →
        ∃ c, extract now (some chain) = Step.ok c)
    ∧ (∀ (now : Int) x sc ic p, processCert now x sc ic = Step.ok p →
        x.tbs_certificate.validity.not_after < now →
          (certIsCA x = false →
            p.1.is_valid = false
            ∧ (sc.time_to_expiration = "" → p.1.time_to_expiration = ""))
          ∧ (certIsCA x = true →
            p.2.is_valid = false
            ∧ (ic.time_to_expiration = "" → p.2.time_to_expiration = ""))) := by
  constructor
  · intro now chain hg
    obtain ⟨p, hp⟩ := processChain_good hg (freshServerCert now) (freshIntermediateCert now)
    refine ⟨{ server := p.1, intermediate := p.2 }, ?_⟩
    unfold extract
    dsimp only []
    rw [hp]
    rfl
  · intro now x sc ic p h hexp
    constructor
    · intro hca
      obtain ⟨_, hu⟩ := processCert_leaf hca h
      obtain ⟨hv, _, _, _, _, _, hnone⟩ := updateServer_ok_fields hu
      have hn : x.tbs_certificate.validity.time_to_expiration now = none := by
        unfold Validity.time_to_expiration; rw [if_neg (by omega)]
      refine ⟨?_, fun hsc => by rw [hnone hn, hsc]⟩
      have h2 : ¬(now ≤ x.tbs_certificate.validity.not_after) := by omega
      rw [hv]
      unfold Validity.is_valid_at
      simp [h2]
    · intro hca
      obtain ⟨_, hu⟩ := processCert_ca hca h
      obtain ⟨hv, _, _, _, _, hnone⟩ := updateIntermediate_ok_fields hu
      have hn : x.tbs_certificate.validity.time_to_expiration now = none := by
        unfold Validity.time_to_expiration; rw [if_neg (by omega)]
      refine ⟨?_, fun hic => by rw [hnone hn, hic]⟩
      have h2 : ¬(now ≤ x.tbs_certificate.validity.not_after) := by omega
      rw [hv]
      unfold Validity.is_valid_at
      simp [h2]

/-- C8 witness: the well-behaved not-yet-valid chain yields a summary, and
the expired CA certificate processed from fresh records is reported with
is_valid = false and an empty time_to_expiration. -/
theorem c8_temporal_invalidity_not_error_witness :
    (∃ c, extract 50 (some [RawCert.wellFormed notYetValidLeaf]) = Step.ok c)
    ∧ (certIsCA expiredCA = true →
        ((processCert 1000 expiredCA (freshServerCert 1000) (freshIntermediateCert 1000)).getOk
            (freshServerCert 1000, freshIntermediateCert 1000)).2.is_valid = false
        ∧ ((freshIntermediateCert 1000).time_to_expiration = "" →
            ((processCert 1000 expiredCA (freshServerCert 1000)
                (freshIntermediateCert 1000)).getOk
              (freshServerCert 1000, freshIntermediateCert 1000)).2.time_to_expiration = "")) :=
  ⟨c8_temporal_invalidity_not_error.1 50 [RawCert.wellFormed notYetValidLeaf] rfl,
   (c8_temporal_invalidity_not_error.2 1000 expiredCA (freshServerCert 1000)
      (freshIntermediateCert 1000) _ rfl (by decide)).2⟩

/-- C9: both records start a pass with empty strings, an empty SAN list and
is_valid = false (the two instants are initialized to the current time), and
after a single-certificate pass every RDN-derived string field of the
written record is still the empty string whenever the certificate's subject
or issuer does not provide the corresponding attribute (C, ST, L, CN, O,
issuer CN). -/
theorem c9_fresh_defaults_and_absent_attributes (now : Int) :
    freshServerCert now =
      { common_name := "", signature_algorithm := "", sans := [], country := "",
        state := "", locality := "", organization := "", not_after := now,
        not_before := now, issuer := "", is_valid := false, time_to_expiration := "" }
    ∧ freshIntermediateCert now =
      { common_name := "", signature_algorithm := "", country := "", state := "",
        locality := "", organization := "", not_after := now, not_before := now,
        issuer := "", is_valid := false, time_to_expiration := "" }
    ∧ ∀ x sc' ic',
        processChain now [RawCert.wellFormed x] (freshServerCert now)
            (freshIntermediateCert now) = Step.ok (sc', ic') →
        (certIsCA x = false →
          (providesAttr x.tbs_certificate.subject "C" = false → sc'.country = "")
          ∧ (providesAttr x.tbs_certificate.subject "ST" = false → sc'.state = "")
          ∧ (providesAttr x.tbs_certificate.subject "L" = false → sc'.locality = "")
          ∧ (providesAttr x.tbs_certificate.subject "CN" = false → sc'.common_name = "")
          ∧ (providesAttr x.tbs_certificate.subject "O" = false → sc'.organization = "")
          ∧ (providesAttr x.tbs_certificate.issuer "CN" = false → sc'.issuer = ""))
        ∧ (certIsCA x = true →
          (providesAttr x.tbs_certificate.subject "C" = false → ic'.country = "")
          ∧ (providesAttr x.tbs_certificate.subject "ST" = false → ic'.state = "")
          ∧ (providesAttr x.tbs_certificate.subject "L" = false → ic'.locality = "")
          ∧ (providesAttr x.tbs_certificate.subject "CN" = false → ic'.common_name = "")
          ∧ (providesAttr x.tbs_certificate.subject "O" = false → ic'.organization = "")
          ∧ (providesAttr x.tbs_certificate.issuer "CN" = false → ic'.issuer = "")) := by
  refine ⟨rfl, rfl, ?_⟩
  intro x sc' ic' h
  simp only [processChain, parse_x509_der] at h
  cases hpc : processCert now x (freshServerCert now) (freshIntermediateCert now) with
  | ok q =>
    cases q with
    | mk a b =>
      rw [hpc] at h
      dsimp only [processChain] at h
      simp only [Step.ok.injEq, Prod.mk.injEq] at h
      obtain ⟨ha, hb⟩ := h
      subst ha hb
      constructor
      · intro hca
        obtain ⟨_, hu⟩ := processCert_leaf hca hpc
        obtain ⟨q1, q2, q3, q4, q5, q6⟩ := updateServer_absent_fields hu
        exact ⟨fun hh => q1 hh, fun hh => q2 hh, fun hh => q3 hh,
               fun hh => q4 hh, fun hh => q5 hh, fun hh => q6 hh⟩
      · intro hca
        obtain ⟨_, hui⟩ := processCert_ca hca hpc
        obtain ⟨q1, q2, q3, q4, q5, q6⟩ := updateIntermediate_absent_fields hui
        exact ⟨fun hh => q1 hh, fun hh => q2 hh, fun hh => q3 hh,
               fun hh => q4 hh, fun hh => q5 hh, fun hh => q6 hh⟩
  | err k m => rw [hpc] at h; exact absurd h (by simp)
  | panic m => rw [hpc] at h; exact absurd h (by simp)

/-- C9 witness: the leaf certificate with no subject or issuer attributes,
processed at instant 50 from fresh records, leaves every RDN-derived string
field empty. -/
theorem c9_fresh_defaults_witness :
    (certIsCA notYetValidLeaf = false →
      (providesAttr notYetValidLeaf.tbs_certificate.subject "C" = false →
        ((processChain 50 [RawCert.wellFormed notYetValidLeaf] (freshServerCert 50)
              (freshIntermediateCert 50)).getOk
            (freshServerCert 50, freshIntermediateCert 50)).1.country = "")
      ∧ (providesAttr notYetValidLeaf.tbs_certificate.subject "ST" = false →
        ((processChain 50 [RawCert.wellFormed notYetValidLeaf] (freshServerCert 50)
              (freshIntermediateCert 50)).getOk
            (freshServerCert 50, freshIntermediateCert 50)).1.state = "")
      ∧ (providesAttr notYetValidLeaf.tbs_certificate.subject "L" = false →
        ((processChain 50 [RawCert.wellFormed notYetValidLeaf] (freshServerCert 50)
              (freshIntermediateCert 50)).getOk
            (freshServerCert 50, freshIntermediateCert 50)).1.locality = "")
      ∧ (providesAttr notYetValidLeaf.tbs_certificate.subject "CN" = false →
        ((processChain 50 [RawCert.wellFormed notYetValidLeaf] (freshServerCert 50)
              (freshIntermediateCert 50)).getOk
            (freshServerCert 50, freshIntermediateCert 50)).1.common_name = "")
      ∧ (providesAttr notYetValidLeaf.tbs_certificate.subject "O" = false →
        ((processChain 50 [RawCert.wellFormed notYetValidLeaf] (freshServerCert 50)
              (freshIntermediateCert 50)).getOk
            (freshServerCert 50, freshIntermediateCert 50)).1.organization = "")
      ∧ (providesAttr notYetValidLeaf.tbs_certificate.issuer "CN" = false →
        ((processChain 50 [RawCert.wellFormed notYetValidLeaf] (freshServerCert 50)
              (freshIntermediateCert 50)).getOk
            (freshServerCert 50, freshIntermediateCert 50)).1.issuer = ""))
    ∧ (certIsCA notYetValidLeaf = true →
      (providesAttr notYetValidLeaf.tbs_certificate.subject "C" = false →
        ((processChain 50 [RawCert.wellFormed notYetValidLeaf] (freshServerCert 50)
              (freshIntermediateCert 50)).getOk
            (freshServerCert 50, freshIntermediateCert 50)).2.country = "")
      ∧ (providesAttr notYetValidLeaf.tbs_certificate.subject "ST" = false →
        ((processChain 50 [RawCert.wellFormed notYetValidLeaf] (freshServerCert 50)
              (freshIntermediateCert 50)).getOk
            (freshServerCert 50, freshIntermediateCert 50)).2.state = "")
      ∧ (providesAttr notYetValidLeaf.tbs_certificate.subject "L" = false →
        ((processChain 50 [RawCert.wellFormed notYetValidLeaf] (freshServerCert 50)
              (freshIntermediateCert 50)).getOk
            (freshServerCert 50, freshIntermediateCert 50)).2.locality = "")
      ∧ (providesAttr notYetValidLeaf.tbs_certificate.subject "CN" = false →
        ((processChain 50 [RawCert.wellFormed notYetValidLeaf] (freshServerCert 50)
              (freshIntermediateCert 50)).getOk
            (freshServerCert 50, freshIntermediateCert 50)).2.common_name = "")
      ∧ (providesAttr notYetValidLeaf.tbs_certificate.subject "O" = false →
        ((processChain 50 [RawCert.wellFormed notYetValidLeaf] (freshServerCert 50)
              (freshIntermediateCert 50)).getOk
            (freshServerCert 50, freshIntermediateCert 50)).2.organization = "")
      ∧ (providesAttr notYetValidLeaf.tbs_certificate.issuer "CN" = false →
        ((processChain 50 [RawCert.wellFormed notYetValidLeaf] (freshServerCert 50)
              (freshIntermediateCert 50)).getOk
            (freshServerCert 50, freshIntermediateCert 50)).2.issuer = "")) :=
  (c9_fresh_defaults_and_absent_attributes 50).2.2 notYetValidLeaf _ _ rfl

/-- C10: with panics modelled as a separate outcome, the pass never panics
when every RDN set read by the walk is non-empty with a string-representable
first value (errors may still occur), and a certificate violating either
condition makes the pass reach the panic outcome instead of an error:
indexing `set[0]` of an empty RDN set, or unwrapping a non-string first
attribute value. -/
theorem c10_rdn_walk_panics (now : Int) :
    (∀ chain, chain.all rawNonpanicking = true →
        ∀ m, extract now (some chain) ≠ Step.panic m)
    ∧ (∀ sc ic, processChain now [RawCert.wellFormed emptyRdnSetLeaf] sc ic =
        Step.panic "index out of bounds: the len is 0 but the index is 0")
    ∧ (∀ sc ic, processChain now [RawCert.wellFormed nonStringRdnLeaf] sc ic =
        Step.panic "called Option.unwrap on a None value") := by
  refine ⟨?_, fun sc ic => rfl, fun sc ic => rfl⟩
  intro chain hc m hpanic
  unfold extract at hpanic
  dsimp only [] at hpanic
  cases hpc : processChain now chain (freshServerCert now) (freshIntermediateCert now) with
  | ok p => rw [hpc] at hpanic; exact absurd hpanic (by simp [Step.bind])
  | err k m' => rw [hpc] at hpanic; exact absurd hpanic (by simp [Step.bind])
  | panic m' => exact processChain_no_panic hc _ _ m' hpc

/-- C10 witness: a well-behaved chain cannot reach the panic outcome, while
the empty-RDN-set certificate panics with the index-out-of-bounds
message. -/
theorem c10_rdn_walk_panics_witness :
    (∀ m, extract 0 (some [RawCert.wellFormed exampleLeaf]) ≠ Step.panic m)
    ∧ processChain 0 [RawCert.wellFormed emptyRdnSetLeaf] (freshServerCert 0)
        (freshIntermediateCert 0) =
      Step.panic "index out of bounds: the len is 0 but the index is 0" :=
  ⟨(c10_rdn_walk_panics 0).1 [RawCert.wellFormed exampleLeaf] rfl,
   (c10_rdn_walk_panics 0).2.1 (freshServerCert 0) (freshIntermediateCert 0)⟩

end CheckSSL
